import Mathlib

/-!
# Verification of `aws-prometheus-exporter`

A shallow embedding, in Lean 4, of the core of the `aws_prometheus_exporter`
Python package (`aws_prometheus_exporter/__init__.py`): the metric-spec parser
`parse_aws_metrics`, the call executor `_call_service_method`, the projection
step of `AwsMetricsCollector._collect_metric`, and the refresh/render pair
`update` / `collect`, together with theorems settling the specification's
claims about them.

Conventions of the embedding:

* Python/JSON values are modelled by the inductive `JVal`; Python `None` is
  `JVal.null`.
* Python dictionaries are modelled by association lists with string keys.
  The operations `alget` / `alset` / `alpop` / `alinsert` coincide with the
  Python dict operations on lists whose keys are pairwise distinct, which is
  the only case a Python dict can produce.
* External boundaries (the boto3 client, the jmespath evaluator) are passed in
  as explicit function/stub parameters, exactly the way the repository's own
  test-suite stubs them with mocks.
* Exceptions are modelled with `Except PyErr`; each `PyErr` constructor
  corresponds to one concrete `raise`/`assert` site of the source.
-/

set_option autoImplicit false

namespace AwsExporter

/-- JSON-like Python values: `None`, booleans, integers, strings,
`datetime` instances (as minutes on an abstract clock axis), lists, dicts. -/
inductive JVal where
  | null
  | bool (b : Bool)
  | int (n : Int)
  | str (s : String)
  | time (t : Int)
  | arr (xs : List JVal)
  | obj (kvs : List (String × JVal))

/-- A Python dict with string keys, as an association list. -/
abbrev Dict := List (String × JVal)

/-- Python `d.get(k)`: the value stored at the first occurrence of key `k`. -/
def alget {α : Type} (d : List (String × α)) (k : String) : Option α :=
  (d.find? (fun p => p.1 == k)).map (fun p => p.2)

/-- Python `d[k] = v`: update the value at an existing key in place, else append
the new pair at the end (Python dict assignment keeps the position of the
first insertion of a key). -/
def alset {α : Type} (d : List (String × α)) (k : String) (v : α) :
    List (String × α) :=
  if d.any (fun p => p.1 == k) then
    d.map (fun p => if p.1 == k then (k, v) else p)
  else
    d ++ [(k, v)]

/-- Python `d.pop(k)`: remove the entry for key `k`.  On a dict with pairwise
distinct keys this is exactly the Python `pop`. -/
def alpop {α : Type} (d : List (String × α)) (k : String) :
    List (String × α) :=
  d.filter (fun p => !(p.1 == k))

/-- Whether key `k` is present (`k in d`). -/
def alhas {α : Type} (d : List (String × α)) (k : String) : Bool :=
  d.any (fun p => p.1 == k)

/-- Python `x is None` for a modelled Python value. -/
def isNone : JVal → Bool
  | JVal.null => true
  | _ => false

/-- Python `isinstance(x, (float, int))`; note that Python `bool` is a
subclass of `int`, so booleans pass this check. -/
def isNumber : JVal → Bool
  | JVal.int _ => true
  | JVal.bool _ => true
  | _ => false

/-- The exceptions the modelled code can raise, one constructor per
`raise`/`assert` site of `aws_prometheus_exporter/__init__.py`.  `SpecError`
of the specification is the `ValueError` family raised by
`parse_aws_metrics`; `fetchError` stands for a transport-level error raised
by the remote (boto3) client boundary. -/
inductive PyErr where
  /-- metric name does not match `^[a-z_0-9]+$` (line 152). -/
  | invalidName (metric : String)
  /-- metric has neither a `paginator` nor a `method` property (line 162). -/
  | noMethodOrPaginator (metric : String)
  /-- `get_field`: missing mandatory field (line 136). -/
  | missingField (metric field : String)
  /-- `eval_paginator_args`: a string argument evaluated to a non-dict
  (line 146). -/
  | argsNotDict
  /-- `eval_paginator_args`: the args field is neither a str nor a dict
  (line 148). -/
  | argsBadType
  /-- `.strip()` called on a non-string field value (Python
  `AttributeError`). -/
  | attributeError (field : String)
  /-- `assert all(isinstance(r, dict) for r in responses)` failed
  (line 96): the projection result is not a list of dicts. -/
  | responsesNotDicts
  /-- `assert "value" in response` failed (line 99). -/
  | missingValueProperty
  /-- `assert isinstance(response["value"], (float, int))` failed
  (line 100). -/
  | valueNotNumber
  /-- `response[label]` raised `KeyError` (line 102). -/
  | keyError (label : String)
  /-- a transport error raised by the remote client boundary
  (`FetchError` in the specification's taxonomy). -/
  | fetchError (service method : String)
deriving DecidableEq

/-- The `AwsMetric` namedtuple (lines 23–32). -/
structure AwsMetric where
  name : String
  description : String
  service : String
  method : String
  method_args : Dict
  use_paginator : Bool
  label_names : List String
  search : String

/-!
## The cursor-loop executor `_call_service_method` (lines 112–123)

The boto3 service method is modelled as a stub that returns, on its
successive invocations, the successive elements of a list `pending` of
response dicts — exactly the `mock.Mock(side_effect=method_responses)` stub
of the repository's tests.  The jmespath projection applied to each response
(line 121) is the function parameter `searchFn`.

`csmLoop` returns `some (records, calls)` when the loop terminates within
the stubbed responses: `records` is the concatenation, in call order, of the
records extracted from each response, and `calls` lists the keyword
arguments of every invocation actually issued.  It returns `none` when the
code would issue one more call than there are stubbed responses.
-/

/-- Line 120, `response.get("NextToken", None)`, as a `JVal` where an
absent key yields Python `None` (`JVal.null`). -/
def tokenOf (response : Dict) : JVal :=
  (alget response "NextToken").getD JVal.null

/-- The `while next_token is not None` loop of `_call_service_method`
(lines 118–122): call the stub, read the token, extract and accumulate the
records, merge the token into the kwargs, repeat while the token is not
`None`. -/
def csmLoop (searchFn : Dict → List JVal) (kwargs : Dict) :
    List Dict → Option (List JVal × List Dict)
  | [] => none
  | response :: rest =>
    let next_token := tokenOf response
    let recs := searchFn response
    if isNone next_token then
      some (recs, [kwargs])
    else
      match csmLoop searchFn (alset kwargs "NextToken" next_token) rest with
      | none => none
      | some (recs2, calls2) => some (recs ++ recs2, kwargs :: calls2)

/-- The method `_call_service_method` (lines 112–123): run the cursor loop starting
from a fresh copy `dict(**metric.method_args)` of the metric's arguments. -/
def call_service_method (searchFn : Dict → List JVal) (metric : AwsMetric)
    (pending : List Dict) : Option (List JVal × List Dict) :=
  csmLoop searchFn metric.method_args pending

/-!
## The parser `parse_aws_metrics` (lines 126–174)

The YAML layer (`yaml.load`, an external library) parses a mapping document
into a Python dict.  We model the raw document as the ordered list of
`(metric name, metric body)` pairs as they appear in the text — possibly
with duplicate names — and `yaml.load`'s mapping construction as plain dict
insertion (`yamlLoadMapping`): pairs are inserted in document order, a
repeated key keeps its first position and takes its last value, and no error
is raised (PyYAML's `construct_mapping` behaviour).

A string-valued `*_args` field is handed by the source to Python
`eval(s, {"datetime": datetime.datetime, "timedelta": datetime.timedelta})`
(line 144).  We model that external evaluation boundary as the small
date-arithmetic expression language the bindings expose — a current-moment
constructor `datetime.utcnow()`, absolute `datetime(y, m, d)` literals, and
subtraction of `timedelta` durations — with time measured in minutes on an
abstract clock axis and the current moment `now` passed in explicitly (in
Python it is read from the system clock at evaluation time).  A document is
therefore a value of `RawDoc` and the parse result is a function of the
document *and* of `now`.
-/

/-- A date/time expression accepted by the bindings
`{"datetime": datetime.datetime, "timedelta": datetime.timedelta}`:
`datetime.utcnow()`, an absolute `datetime(...)` literal, or a subtraction
of a `timedelta` duration (in minutes). -/
inductive TimeExpr where
  /-- `datetime.utcnow()`: the current moment at evaluation time. -/
  | utcnow
  /-- an absolute `datetime(y, m, d, ...)` literal, as minutes. -/
  | lit (t : Int)
  /-- `e - timedelta(...)` with the duration in minutes. -/
  | subDuration (e : TimeExpr) (minutes : Int)

/-- Evaluate a date/time expression at current moment `now`. -/
def TimeExpr.evalAt (now : Int) : TimeExpr → Int
  | .utcnow => now
  | .lit t => t
  | .subDuration e m => e.evalAt now - m

/-- The expression held by a string-valued `*_args` field: either a dict
display whose values are date/time expressions, or an expression that does
not evaluate to a dict. -/
inductive ArgsExpr where
  | dictExpr (entries : List (String × TimeExpr))
  | nonDict (e : TimeExpr)

/-- A field value of a raw (YAML-parsed) metric body.  `expr e` is the
string case of an args field, carrying the date-arithmetic expression the
string contains; `strList` is a YAML list of strings (the shape of
`label_names`); `null` is an explicitly null YAML value. -/
inductive FieldVal where
  | null
  | str (s : String)
  | strList (xs : List String)
  | dict (d : Dict)
  | expr (e : ArgsExpr)

/-- A raw metric body: the YAML mapping under one metric name. -/
abbrev RawMetric := List (String × FieldVal)

/-- A raw document: the ordered `(name, body)` pairs of the top-level YAML
mapping as written, before dict construction collapses duplicate names. -/
abbrev RawDoc := List (String × RawMetric)

/-- The `yaml.load` construction of the top-level mapping: Python dict
insertion in document order.  A duplicate key keeps the position of its
first occurrence and the value of its last occurrence; no error is
raised. -/
def yamlLoadMapping (doc : RawDoc) : RawDoc :=
  doc.foldl (fun acc p => alset acc p.1 p.2) []

/-- Run a fallible step over a list, left to right, stopping at the first
exception — the effect of a Python `for` loop (or comprehension) whose body
may raise. -/
def mapExcept {α β : Type} (f : α → Except PyErr β) : List α → Except PyErr (List β)
  | [] => .ok []
  | x :: xs => do
    let y ← f x
    let ys ← mapExcept f xs
    return y :: ys

/-- Matching `VALID_METRIC_NAME_RE.match(metric_name)` against `^[a-z_0-9]+$`
(lines 21 and 151): nonempty, all characters lowercase letters, digits or
underscore. -/
def validMetricName (s : String) : Bool :=
  !s.isEmpty && s.toList.all fun c =>
    (97 ≤ c.toNat && c.toNat ≤ 122) ||
    (48 ≤ c.toNat && c.toNat ≤ 57) ||
    c.toNat == 95

/-- The helper `get_field` (lines 133–137): `parsed_metric.get(field_name)` is `None`
both when the key is absent and when its value is null; either way the
parse fails naming the metric and the field. -/
def get_field (field_name metric_name : String) (parsed_metric : RawMetric) :
    Except PyErr FieldVal :=
  match alget parsed_metric field_name with
  | none => .error (.missingField metric_name field_name)
  | some FieldVal.null => .error (.missingField metric_name field_name)
  | some v => .ok v

/-- Python `str.isspace` characters relevant to `.strip()`. -/
def isSpaceChar (c : Char) : Bool :=
  c == ' ' || c == '\t' || c == '\n' || c == '\r' || c == '\x0b' || c == '\x0c'

/-- Python `s.strip()`: drop leading and trailing whitespace. -/
def pyStrip (s : String) : String :=
  List.asString
    (((s.toList.dropWhile isSpaceChar).reverse.dropWhile isSpaceChar).reverse)

/-- Calling `.strip()` on a field value: Python succeeds only on a `str` (other
values raise `AttributeError`). -/
def stripField (field_name : String) : FieldVal → Except PyErr String
  | .str s => .ok (pyStrip s)
  | _ => .error (.attributeError field_name)

/-- The helper `eval_paginator_args` (lines 139–148): a dict is returned unchanged; a
string is evaluated through the date-arithmetic boundary at the current
moment `now` and must come out a dict; anything else raises.  The `expr`
field-value case is the string case, carrying the expression the string
contains. -/
def eval_paginator_args (now : Int) : FieldVal → Except PyErr Dict
  | .dict d => .ok d
  | .expr (ArgsExpr.dictExpr entries) =>
      .ok (entries.map fun p => (p.1, JVal.time (p.2.evalAt now)))
  | .expr (ArgsExpr.nonDict _) => .error .argsNotDict
  | _ => .error .argsBadType

/-- The `label_names` field as stored into the namedtuple.  The source
stores `get_field("label_names", ...)` without any shape check; a value
that is not a list of strings would only blow up later, inside the
collector (`self._label_names + m.label_names`, `for label in
metric.label_names`).  The embedding restricts documents to the shapes the
collector can actually consume and maps any other shape to that downstream
type error. -/
def labelNamesField : FieldVal → Except PyErr (List String)
  | .strList xs => .ok xs
  | _ => .error (.attributeError "label_names")

/-- The paginator/method mode selection (lines 153–162): the `paginator`
key takes precedence, then `method`; neither present is an error naming
the metric. -/
def selectMode (metric_name : String) (parsed_metric : RawMetric) :
    Except PyErr (String × String × Bool) :=
  if alhas parsed_metric "paginator" then .ok ("paginator", "paginator_args", true)
  else if alhas parsed_metric "method" then .ok ("method", "method_args", false)
  else .error (.noMethodOrPaginator metric_name)

/-- A `get_field(...)` call followed by `.strip()`, the pattern used for the four
string-valued fields of the namedtuple. -/
def strippedField (field_name metric_name : String)
    (parsed_metric : RawMetric) : Except PyErr String :=
  match get_field field_name metric_name parsed_metric with
  | .error e => .error e
  | .ok v => stripField field_name v

/-- The body of the `for metric_name, parsed_metric in parsed_yaml.items()`
loop (lines 150–172): validate the name, pick the paginator/method mode,
then build the `AwsMetric` keyword by keyword in source order
(`description`, `service`, the method field, the args field,
`label_names`, `search`), so the first failing field determines the
error. -/
def parseOneMetric (now : Int) (metric_name : String)
    (parsed_metric : RawMetric) : Except PyErr AwsMetric :=
  if !validMetricName metric_name then .error (.invalidName metric_name)
  else
    match selectMode metric_name parsed_metric with
    | .error e => .error e
    | .ok (method_field, method_args_field, use_paginator) =>
      match strippedField "description" metric_name parsed_metric with
      | .error e => .error e
      | .ok description =>
        match strippedField "service" metric_name parsed_metric with
        | .error e => .error e
        | .ok service =>
          match strippedField method_field metric_name parsed_metric with
          | .error e => .error e
          | .ok method =>
            match eval_paginator_args now
                ((alget parsed_metric method_args_field).getD (.dict [])) with
            | .error e => .error e
            | .ok method_args =>
              match get_field "label_names" metric_name parsed_metric with
              | .error e => .error e
              | .ok label_names_val =>
                match labelNamesField label_names_val with
                | .error e => .error e
                | .ok label_names =>
                  match strippedField "search" metric_name parsed_metric with
                  | .error e => .error e
                  | .ok search =>
                    .ok { name := metric_name, description := description,
                          service := service, method := method,
                          method_args := method_args,
                          use_paginator := use_paginator,
                          label_names := label_names, search := search }

/-- The function `parse_aws_metrics` (lines 126–174): load the YAML mapping, then build
one `AwsMetric` per entry, in mapping order, stopping at the first
error. -/
def parse_aws_metrics (now : Int) (doc : RawDoc) :
    Except PyErr (List AwsMetric) :=
  mapExcept (fun p => parseOneMetric now p.1 p.2) (yamlLoadMapping doc)

/-!
## The collector `AwsMetricsCollector` (lines 48–104)

The remote boundary (boto3 session + jmespath, i.e. `_call_paginator` /
`_call_service_method` with a live client) is a stub `fetch` mapping a
metric to the list of projected response records it yields, or to a
transport error — the same boundary the repository's tests replace with
mocks.  The projection step proper (lines 96–104 of `_collect_metric`) is
`project_responses`; since Python's `response.pop("value")` mutates the
response dicts in place, it returns the rows *and* the post-mutation
response dicts.
-/

/-- One exported observation: `(label_values, value)` as appended on
line 103. -/
abbrev Row := List JVal × JVal

/-- One label read of line 102:
`response[label] if response[label] is not None else '<null>'`, where an
absent key raises `KeyError`. -/
def labelLookup (response2 : Dict) (label : String) : Except PyErr JVal :=
  match alget response2 label with
  | none => .error (PyErr.keyError label)
  | some JVal.null => .ok (JVal.str "<null>")
  | some x => .ok x

/-- The body of the `for response in responses` loop (lines 99–103) for a
single response dict: assert `"value"` present and numeric, pop it, then
read each label (after the pop), substituting the string `"<null>"` for a
`None` label value.  Returns the row and the mutated response dict. -/
def collectRecord (label_values : List JVal) (label_names : List String)
    (response : Dict) : Except PyErr (Row × Dict) :=
  match alget response "value" with
  | none => .error .missingValueProperty
  | some v =>
    if !isNumber v then .error .valueNotNumber
    else
      match mapExcept (labelLookup (alpop response "value")) label_names with
      | .error e => .error e
      | .ok labels => .ok ((label_values ++ labels, v), alpop response "value")

/-- Lines 96–104 of `_collect_metric`: assert every response is a dict,
then build the row list in response order.  The second component of the
result is the list of response dicts as left behind by the in-place
`pop`. -/
def project_responses (label_values : List JVal) (label_names : List String)
    (responses : List JVal) : Except PyErr (List Row × List Dict) :=
  if !(responses.all fun r => match r with | JVal.obj _ => true | _ => false) then
    .error .responsesNotDicts
  else
    match mapExcept (fun r =>
      match r with
      | JVal.obj d => collectRecord label_values label_names d
      | _ => .error .responsesNotDicts) responses with
    | .error e => .error e
    | .ok pairs => .ok (pairs.map Prod.fst, pairs.map Prod.snd)

/-- The method `_collect_metric` (lines 94–104): fetch the projected records through
the remote boundary stub, then run the projection step, keeping only the
rows. -/
def collect_metric (fetch : AwsMetric → Except PyErr (List JVal))
    (label_values : List JVal) (metric : AwsMetric) :
    Except PyErr (List Row) :=
  match fetch metric with
  | .error e => .error e
  | .ok responses =>
    match project_responses label_values metric.label_names responses with
    | .error e => .error e
    | .ok (rows, _) => .ok rows

/-- The collector's state: the fields set up in `__init__` (lines 55–68)
plus the guarded `_data` mapping. -/
structure CollectorState where
  metrics : List AwsMetric
  label_names : List String
  label_values : List JVal
  data : List (String × List Row)

/-- The `for metric in self._metrics` loop of `update` (lines 79–80):
store each metric's fresh rows under its name; an exception from
`_collect_metric` propagates at once, leaving `_data` with only the entries
assigned so far. -/
def updateLoop (fetch : AwsMetric → Except PyErr (List JVal))
    (label_values : List JVal) :
    List AwsMetric → List (String × List Row) →
    List (String × List Row) × Option PyErr
  | [], data => (data, none)
  | metric :: rest, data =>
    match collect_metric fetch label_values metric with
    | .error e => (data, some e)
    | .ok rows => updateLoop fetch label_values rest (alset data metric.name rows)

/-- The method `update` (lines 70–80): under the data lock, reset `_data` to the empty
dict, then refresh every metric in declaration order.  The returned state
is the collector after the call — on an exception, `_data` keeps only the
metrics refreshed before the failure, and the exception is reported in the
second component. -/
def update (fetch : AwsMetric → Except PyErr (List JVal))
    (st : CollectorState) : CollectorState × Option PyErr :=
  let (data, err) := updateLoop fetch st.label_values st.metrics []
  ({ st with data := data }, err)

/-- One gauge family as yielded by `collect` (lines 88–92): name,
description, label-name list, and one sample per stored row. -/
structure GaugeFamily where
  name : String
  description : String
  labels : List String
  samples : List Row

/-- The method `collect` (lines 82–92): under the data lock, yield one gauge family
per declared metric, with the process-wide extra label names prepended to
the metric's own label names and the rows of `self._data.get(m.name, [])`
as samples. -/
def collect (st : CollectorState) : List GaugeFamily :=
  st.metrics.map fun m =>
    { name := m.name
      description := m.description
      labels := st.label_names ++ m.label_names
      samples := (alget st.data m.name).getD [] }

/-!
## The lock discipline of `update` (lines 77–80)

For the claim about which work happens inside the mutual-exclusion domain,
the control flow of `update` is abstracted into a trace of events: the lock
acquisition and release of the `with self._data_lock:` block, the reset of
`_data`, and, per metric, the remote call, the projection and the store of
the rows (the three phases of `_collect_metric` + `_data[...] = ...`).
-/

/-- One control-flow event of `update`. -/
inductive Step where
  | acquire
  | release
  | clearData
  | remoteCall (metric : String)
  | projection (metric : String)
  | storeRows (metric : String)

/-- The event trace of one `update()` call: the whole body — the `_data`
reset and, for every metric, the remote call, the projection and the row
store — runs between the acquisition and the release of `_data_lock`
(the `with self._data_lock:` block spans lines 77–80). -/
def updateTrace (metrics : List AwsMetric) : List Step :=
  [Step.acquire, Step.clearData] ++
    (metrics.map fun m =>
      [Step.remoteCall m.name, Step.projection m.name, Step.storeRows m.name]).flatten ++
    [Step.release]

/-!
## Fixtures and auxiliary predicates used by the claim theorems

Concrete documents, metrics, stubs and decidable predicates referenced by
the theorems below.
-/
/-- A metric body with every field the claim calls mandatory, but no
`label_names` key. -/
def rmNoLabelNames : RawMetric :=
  [("description", FieldVal.str "EC2 instance ids"),
   ("service", FieldVal.str "ec2"),
   ("method", FieldVal.str "describe_instances"),
   ("method_args", FieldVal.dict []),
   ("search", FieldVal.str "expr")]

/-- Two well-formed metric bodies that differ only in their description. -/
def rmDupFirst : RawMetric :=
  [("description", FieldVal.str "first"),
   ("service", FieldVal.str "ec2"),
   ("method", FieldVal.str "describe_instances"),
   ("label_names", FieldVal.strList ["id"]),
   ("search", FieldVal.str "expr")]

def rmDupSecond : RawMetric :=
  [("description", FieldVal.str "second"),
   ("service", FieldVal.str "ec2"),
   ("method", FieldVal.str "describe_instances"),
   ("label_names", FieldVal.strList ["id"]),
   ("search", FieldVal.str "expr")]

/-- Whether a date/time expression mentions the current-moment
constructor. -/
def TimeExpr.usesClock : TimeExpr → Bool
  | .utcnow => true
  | .lit _ => false
  | .subDuration e _ => e.usesClock

/-- Whether an args expression mentions the current-moment constructor. -/
def ArgsExpr.usesClock : ArgsExpr → Bool
  | .dictExpr entries => entries.any fun p => p.2.usesClock
  | .nonDict e => e.usesClock

/-- Whether a field value is a string args field whose expression reads
the clock. -/
def FieldVal.argsUseClock : FieldVal → Bool
  | .expr e => e.usesClock
  | _ => false

/-- Whether any field of a metric body reads the clock when evaluated. -/
def metricUsesClock (pm : RawMetric) : Bool :=
  pm.any fun q => q.2.argsUseClock

/-- Whether any metric of a document reads the clock when evaluated. -/
def docUsesClock (doc : RawDoc) : Bool :=
  doc.any fun p => metricUsesClock p.2

/-- The `recent_emr_cluster_ids` pattern of the repository's own tests,
with `datetime(2018, 1, 1)` replaced by `datetime.utcnow()` — a 
paginator_args string whose evaluation reads the clock. -/
def rmClockArgs : RawMetric :=
  [("description", FieldVal.str "Recent EMR cluster ids"),
   ("service", FieldVal.str "emr"),
   ("paginator", FieldVal.str "list_clusters"),
   ("paginator_args", FieldVal.expr (ArgsExpr.dictExpr
     [("CreatedAfter", TimeExpr.subDuration TimeExpr.utcnow 40320)])),
   ("label_names", FieldVal.strList ["id"]),
   ("search", FieldVal.str "Clusters")]

/-- A clock-free document: dict-valued args only. -/
def rmPlainBody : RawMetric :=
  [("description", FieldVal.str "EC2 instance ids"),
   ("service", FieldVal.str "ec2"),
   ("method", FieldVal.str "describe_instances"),
   ("method_args", FieldVal.dict [("Filters", JVal.str "f")]),
   ("label_names", FieldVal.strList ["id"]),
   ("search", FieldVal.str "expr")]

def rmPlainDoc : RawDoc := [("plain_metric", rmPlainBody)]

def mFailing : AwsMetric :=
  { name := "failing_metric", description := "d", service := "ec2",
    method := "describe_instances", method_args := [],
    use_paginator := false, label_names := ["id"], search := "s" }

def mHealthy : AwsMetric :=
  { name := "healthy_metric", description := "d", service := "ssm",
    method := "describe_instance_information", method_args := [],
    use_paginator := false, label_names := ["id"], search := "s" }

/-- A remote boundary stub on which `failing_metric` raises a transport
error and every other metric returns one good record. -/
def fetchCex : AwsMetric → Except PyErr (List JVal) := fun m =>
  if m.name == "failing_metric" then
    .error (.fetchError "ec2" "describe_instances")
  else
    .ok [JVal.obj [("id", JVal.str "i1"), ("value", JVal.int 1)]]

/-- A collector holding `failing_metric` (with a previous good snapshot)
followed by `healthy_metric`. -/
def stCex : CollectorState :=
  { metrics := [mFailing, mHealthy], label_names := [], label_values := [],
    data := [("failing_metric", [([JVal.str "old"], JVal.int 7)])] }

/-- Whether a step is the lock acquisition. -/
def isAcquire : Step → Bool
  | .acquire => true
  | _ => false

/-- Whether a step is the lock release. -/
def isRelease : Step → Bool
  | .release => true
  | _ => false

/-- The steps of a trace performed while the lock is held: everything
strictly between the first `acquire` and the `release` that follows it. -/
def heldSteps (tr : List Step) : List Step :=
  ((tr.dropWhile fun s => !isAcquire s).drop 1).takeWhile fun s => !isRelease s

def mTraced : AwsMetric :=
  { name := "ok_metric", description := "d", service := "ec2",
    method := "describe_instances", method_args := [],
    use_paginator := false, label_names := ["id"], search := "s" }

/-!
## Helper lemmas
-/

theorem mapExcept_nil {α β : Type} (f : α → Except PyErr β) :
    mapExcept f [] = .ok [] := rfl

theorem mapExcept_cons {α β : Type} (f : α → Except PyErr β) (a : List α)
    (x : α) :
    mapExcept f (x :: a) =
      (f x >>= fun y => mapExcept f a >>= fun ys => pure (y :: ys)) := rfl

theorem mapExcept_ok_length {α β : Type} (f : α → Except PyErr β) :
    ∀ (xs : List α) (ys : List β), mapExcept f xs = .ok ys → ys.length = xs.length := by
  intro xs
  induction xs with
  | nil =>
    intro ys h
    rw [mapExcept_nil] at h
    cases h
    rfl
  | cons x a ih =>
    intro ys h
    rw [mapExcept_cons] at h
    cases hx : f x with
    | error e => rw [hx] at h; exact absurd h (by simp [Bind.bind, Except.bind])
    | ok y =>
      rw [hx] at h
      cases ha : mapExcept f a with
      | error e => rw [ha] at h; exact absurd h (by simp [Bind.bind, Except.bind])
      | ok ys2 =>
        rw [ha] at h
        simp only [Bind.bind, Except.bind, pure, Except.pure, Except.ok.injEq] at h
        subst h
        simp [ih ys2 ha]

theorem mapExcept_ok_get {α β : Type} (f : α → Except PyErr β) :
    ∀ (xs : List α) (ys : List β), mapExcept f xs = .ok ys →
      ∀ i (hx : i < xs.length) (hy : i < ys.length),
        f (xs.get ⟨i, hx⟩) = .ok (ys.get ⟨i, hy⟩) := by
  intro xs
  induction xs with
  | nil => intro ys _ i hx; exact absurd hx (by simp)
  | cons x a ih =>
    intro ys h i hx hy
    rw [mapExcept_cons] at h
    cases hx0 : f x with
    | error e => rw [hx0] at h; exact absurd h (by simp [Bind.bind, Except.bind])
    | ok y =>
      rw [hx0] at h
      cases ha : mapExcept f a with
      | error e => rw [ha] at h; exact absurd h (by simp [Bind.bind, Except.bind])
      | ok ys2 =>
        rw [ha] at h
        simp only [Bind.bind, Except.bind, pure, Except.pure, Except.ok.injEq] at h
        subst h
        cases i with
        | zero => exact hx0
        | succ j =>
          exact ih ys2 ha j (by simpa using hx) (by simpa using hy)

theorem mapExcept_ok_mem {α β : Type} (f : α → Except PyErr β) :
    ∀ (xs : List α) (ys : List β), mapExcept f xs = .ok ys →
      ∀ y ∈ ys, ∃ x ∈ xs, f x = .ok y := by
  intro xs
  induction xs with
  | nil =>
    intro ys h y hy
    rw [mapExcept_nil] at h
    cases h
    exact absurd hy (by simp)
  | cons x a ih =>
    intro ys h y hy
    rw [mapExcept_cons] at h
    cases hx0 : f x with
    | error e => rw [hx0] at h; exact absurd h (by simp [Bind.bind, Except.bind])
    | ok y0 =>
      rw [hx0] at h
      cases ha : mapExcept f a with
      | error e => rw [ha] at h; exact absurd h (by simp [Bind.bind, Except.bind])
      | ok ys2 =>
        rw [ha] at h
        simp only [Bind.bind, Except.bind, pure, Except.pure, Except.ok.injEq] at h
        subst h
        rcases List.mem_cons.mp hy with rfl | hy
        · exact ⟨x, by simp, hx0⟩
        · rcases ih ys2 ha y hy with ⟨x2, hx2, hfx2⟩
          exact ⟨x2, by simp [hx2], hfx2⟩

theorem mapExcept_error_head {α β : Type} (f : α → Except PyErr β) (a : List α)
    (x : α) (e : PyErr) (h : f x = .error e) :
    mapExcept f (x :: a) = .error e := by
  rw [mapExcept_cons, h]
  rfl

theorem mapExcept_congr {α β : Type} (f g : α → Except PyErr β) :
    ∀ (xs : List α), (∀ a ∈ xs, f a = g a) → mapExcept f xs = mapExcept g xs := by
  intro xs
  induction xs with
  | nil => intro _; rfl
  | cons x a ih =>
    intro h
    rw [mapExcept_cons, mapExcept_cons, h x (by simp),
      ih (fun b hb => h b (by simp [hb]))]

theorem alget_alpop_self {α : Type} (d : List (String × α)) (k : String) :
    alget (alpop d k) k = none := by
  induction d with
  | nil => rfl
  | cons p rest ih =>
    by_cases hp : p.1 = k
    · have hb : (p.1 == k) = true := beq_iff_eq.mpr hp
      simp only [alpop, List.filter_cons, hb, Bool.not_true, Bool.false_eq_true,
        if_false]
      exact ih
    · have hb : (p.1 == k) = false := by
        simpa using hp
      simp only [alpop, List.filter_cons, hb, Bool.not_false, if_true]
      simp only [alget]
      rw [List.find?_cons_of_neg _ (by simp [hb])]
      exact ih

theorem mem_alset {α : Type} (d : List (String × α)) (k : String) (v : α) :
    ∀ q ∈ alset d k v, q ∈ d ∨ q = (k, v) := by
  intro q hq
  unfold alset at hq
  by_cases hk : d.any (fun p => p.1 == k)
  · rw [if_pos hk] at hq
    rcases List.mem_map.mp hq with ⟨p, hp, hpq⟩
    by_cases hpk : p.1 == k
    · right; simp [hpk] at hpq; exact hpq.symm
    · left; simp [hpk] at hpq; exact hpq ▸ hp
  · rw [if_neg hk] at hq
    rcases List.mem_append.mp hq with h | h
    · exact Or.inl h
    · right; simpa using h

theorem keys_alset_update {α : Type} (d : List (String × α)) (k : String)
    (v : α) (hk : d.any (fun p => p.1 == k) = true) :
    (alset d k v).map Prod.fst = d.map Prod.fst := by
  unfold alset
  rw [if_pos hk, List.map_map]
  refine List.map_congr_left ?_
  intro p _
  simp only [Function.comp_apply]
  by_cases hp : p.1 = k
  · simp [hp]
  · simp [hp]

theorem nodup_keys_alset {α : Type} (d : List (String × α)) (k : String)
    (v : α) (h : (d.map Prod.fst).Nodup) :
    ((alset d k v).map Prod.fst).Nodup := by
  by_cases hk : d.any (fun p => p.1 == k)
  · rwa [keys_alset_update d k v hk]
  · unfold alset
    rw [if_neg hk, List.map_append]
    simp only [List.map_cons, List.map_nil]
    apply List.Nodup.append h (List.nodup_singleton k)
    intro a ha hb
    simp only [List.mem_singleton] at hb
    subst hb
    rcases List.mem_map.mp ha with ⟨p, hp, hpa⟩
    simp only [List.any_eq_true, not_exists, not_and] at hk
    exact absurd (beq_iff_eq.mpr hpa) (by simpa using hk p hp)

theorem nodup_keys_foldl_alset {α : Type} (doc : List (String × α)) :
    ∀ (acc : List (String × α)), (acc.map Prod.fst).Nodup →
      ((doc.foldl (fun a p => alset a p.1 p.2) acc).map Prod.fst).Nodup := by
  induction doc with
  | nil => intro acc h; simpa using h
  | cons p rest ih =>
    intro acc h
    exact ih (alset acc p.1 p.2) (nodup_keys_alset acc p.1 p.2 h)

theorem mem_foldl_alset {α : Type} (doc : List (String × α))
    (C : String × α → Prop) :
    ∀ (acc : List (String × α)), (∀ q ∈ acc, C q) → (∀ q ∈ doc, C q) →
      ∀ q ∈ doc.foldl (fun a p => alset a p.1 p.2) acc, C q := by
  induction doc with
  | nil => intro acc hacc _ q hq; exact hacc q hq
  | cons p rest ih =>
    intro acc hacc hdoc q hq
    refine ih (alset acc p.1 p.2) ?_ (fun r hr => hdoc r (by simp [hr])) q hq
    intro r hr
    rcases mem_alset acc p.1 p.2 r hr with h | h
    · exact hacc r h
    · exact h ▸ hdoc p (by simp)

/-!
## Claim C4: the cursor-loop termination condition
-/

/-- C4 counterexample.  The claim states that the executor "stops issuing
further calls as soon as a response's token is absent or empty (in
particular, a response whose NextToken is the empty string ends the
loop)".  On the code, a response whose `NextToken` is the empty string
does **not** end the loop: given a first response `{"NextToken": ""}` the
executor issues a second call (here both stubbed responses are consumed
and two calls are recorded, where the claim demands exactly one). -/
theorem cursor_loop_empty_token_counterexample :
    (csmLoop (fun _ => []) [] [[("NextToken", JVal.str "")], []]).map
        (fun r => r.2.length) = some 2 := rfl

/-- C4 (amended): the cursor loop of `_call_service_method` keeps
repeating the call — with the same arguments plus the new continuation
token merged in — while the previous response's token value is not `None`,
and it stops issuing further calls exactly when a response's `NextToken`
is absent or explicitly `None`; an empty-string token does **not** end the
loop.  The first clause characterises termination within the stubbed
responses; the last two give the step behaviour of each case. -/
theorem cursor_loop_stops_iff_token_none (searchFn : Dict → List JVal)
    (kwargs : Dict) (pending : List Dict) (response : Dict) (rest : List Dict) :
    ((csmLoop searchFn kwargs pending).isSome ↔
      ∃ r ∈ pending, isNone (tokenOf r) = true) ∧
    (isNone (tokenOf response) = true →
      csmLoop searchFn kwargs (response :: rest) =
        some (searchFn response, [kwargs])) ∧
    (isNone (tokenOf response) = false →
      csmLoop searchFn kwargs (response :: rest) =
        (csmLoop searchFn (alset kwargs "NextToken" (tokenOf response)) rest).map
          (fun pr => (searchFn response ++ pr.1, kwargs :: pr.2))) := by
  refine ⟨?_, ?_, ?_⟩
  · induction pending generalizing kwargs with
    | nil => simp [csmLoop]
    | cons r rs ih =>
      by_cases hr : isNone (tokenOf r) = true
      · constructor
        · intro _
          exact ⟨r, List.mem_cons_self r rs, hr⟩
        · intro _
          simp [csmLoop, hr]
      · have hr0 : isNone (tokenOf r) = false := by
          cases h0 : isNone (tokenOf r)
          · rfl
          · exact absurd h0 hr
        have hmain : (csmLoop searchFn kwargs (r :: rs)).isSome
            = (csmLoop searchFn (alset kwargs "NextToken" (tokenOf r)) rs).isSome := by
          simp only [csmLoop, hr0, Bool.false_eq_true, if_false]
          cases csmLoop searchFn (alset kwargs "NextToken" (tokenOf r)) rs with
          | none => rfl
          | some pr => rfl
        rw [hmain, ih (alset kwargs "NextToken" (tokenOf r))]
        constructor
        · rintro ⟨x, hx, hxn⟩
          exact ⟨x, List.mem_cons_of_mem r hx, hxn⟩
        · rintro ⟨x, hx, hxn⟩
          rcases List.mem_cons.mp hx with rfl | hx
          · exact absurd hxn hr
          · exact ⟨x, hx, hxn⟩
  · intro h
    simp [csmLoop, h]
  · intro h
    simp only [csmLoop, h, Bool.false_eq_true, if_false]
    cases csmLoop searchFn (alset kwargs "NextToken" (tokenOf response)) rest with
    | none => rfl
    | some pr => rfl

/-- C4 witness: the termination clause applied to a single response whose
token is explicitly null. -/
theorem cursor_loop_stops_iff_token_none_witness :
    csmLoop (fun _ => [JVal.int 5]) [] [[("NextToken", JVal.null)]] =
      some ([JVal.int 5], [[]]) :=
  (cursor_loop_stops_iff_token_none (fun _ => [JVal.int 5]) []
    [[("NextToken", JVal.null)]] [("NextToken", JVal.null)] []).2.1 rfl

/-!
## Claim C5: the concrete two-call cursor-loop scenario
-/

/-- C5: given a first response carrying `NextToken="123abc"` and a second
response whose token is `None` (absent or explicitly null), the executor
invokes the operation exactly twice — the second invocation with the
original arguments plus `NextToken="123abc"` merged in — issues no third
invocation even when further stubbed responses are available, and
concatenates the records extracted from the two calls in call order. -/
theorem cursor_loop_two_calls (searchFn : Dict → List JVal) (kwargs : Dict)
    (resp1 resp2 : Dict) (rest : List Dict)
    (h1 : tokenOf resp1 = JVal.str "123abc")
    (h2 : isNone (tokenOf resp2) = true) :
    csmLoop searchFn kwargs (resp1 :: resp2 :: rest) =
      some (searchFn resp1 ++ searchFn resp2,
        [kwargs, alset kwargs "NextToken" (JVal.str "123abc")]) := by
  have h1f : isNone (tokenOf resp1) = false := by rw [h1]; rfl
  simp only [csmLoop, h1f, Bool.false_eq_true, if_false, h2, if_pos, h1]
  rfl

/-- C5 witness: the scenario of the repository's own
`test_collect_metric_using_service_method`, with a stub search function
and a third (never consumed) stubbed response. -/
theorem cursor_loop_two_calls_witness :
    csmLoop (fun d => [JVal.int (Int.ofNat d.length)])
        [("Filters", JVal.str "f")]
        [[("NextToken", JVal.str "123abc")], [("NextToken", JVal.null)],
          [("NextToken", JVal.str "zzz")]] =
      some ([JVal.int 1, JVal.int 1],
        [[("Filters", JVal.str "f")],
          [("Filters", JVal.str "f"), ("NextToken", JVal.str "123abc")]]) := by
  rw [cursor_loop_two_calls (fun d => [JVal.int (Int.ofNat d.length)])
    [("Filters", JVal.str "f")] [("NextToken", JVal.str "123abc")]
    [("NextToken", JVal.null)] [[("NextToken", JVal.str "zzz")]] rfl rfl]
  rfl

/-!
## Inversion lemmas for the projection step
-/

theorem collectRecord_ok_inv (label_values : List JVal)
    (label_names : List String) (response : Dict) (row : Row) (r2 : Dict)
    (h : collectRecord label_values label_names response = .ok (row, r2)) :
    ∃ v labels, alget response "value" = some v ∧ isNumber v = true ∧
      r2 = alpop response "value" ∧
      mapExcept (labelLookup (alpop response "value")) label_names = .ok labels ∧
      row = (label_values ++ labels, v) := by
  unfold collectRecord at h
  split at h
  · cases h
  · next v heq =>
    split at h
    · cases h
    · next hnum =>
      split at h
      · cases h
      · next labels hm =>
        simp only [Except.ok.injEq, Prod.mk.injEq] at h
        refine ⟨v, labels, heq, ?_, h.2.symm, hm, h.1.symm⟩
        simpa using hnum

theorem labelLookup_not_null (r2 : Dict) (l : String) (x : JVal)
    (hx : alget r2 l = some x) (hnn : x ≠ JVal.null) :
    labelLookup r2 l = .ok x := by
  unfold labelLookup
  rw [hx]
  cases x with
  | null => exact absurd rfl hnn
  | bool b => rfl
  | int n => rfl
  | str s => rfl
  | time t => rfl
  | arr xs => rfl
  | obj kvs => rfl

theorem project_responses_ok_inv (lv : List JVal) (lns : List String)
    (resps : List JVal) (rows : List Row) (muts : List Dict)
    (h : project_responses lv lns resps = .ok (rows, muts)) :
    ∃ pairs, mapExcept (fun r =>
        match r with
        | JVal.obj d => collectRecord lv lns d
        | _ => .error PyErr.responsesNotDicts) resps = .ok pairs ∧
      rows = pairs.map Prod.fst ∧ muts = pairs.map Prod.snd := by
  unfold project_responses at h
  split at h
  · cases h
  · split at h
    · cases h
    · next pairs heq =>
      simp only [Except.ok.injEq, Prod.mk.injEq] at h
      exact ⟨pairs, heq, h.1.symm, h.2.symm⟩

/-!
## Claim C8: the null sentinel
-/

/-- C8: a projected record with a `None` label value yields the literal
string `"<null>"` in the produced row, while a string label value — the
empty string included — passes through unchanged.  The first two clauses
are the projection step run on the records `{"id": None, "value": n}` and
`{"id": s, "value": n}`; the third clause is the general per-label
characterisation: every produced label is the stored value, with `None`
(and only `None`) replaced by `"<null>"`. -/
theorem null_sentinel_rows (lv : List JVal) (lns : List String) (n : Int)
    (s : String) :
    (project_responses lv ["id"]
        [JVal.obj [("id", JVal.null), ("value", JVal.int n)]] =
      .ok ([(lv ++ [JVal.str "<null>"], JVal.int n)], [[("id", JVal.null)]])) ∧
    (project_responses lv ["id"]
        [JVal.obj [("id", JVal.str s), ("value", JVal.int n)]] =
      .ok ([(lv ++ [JVal.str s], JVal.int n)], [[("id", JVal.str s)]])) ∧
    (∀ (response : Dict) (row : Row) (r2 : Dict),
      collectRecord lv lns response = .ok (row, r2) →
      ∃ labels, row.1 = lv ++ labels ∧ labels.length = lns.length ∧
        ∀ i (hx : i < lns.length) (hy : i < labels.length),
          (alget r2 (lns.get ⟨i, hx⟩) = some JVal.null →
            labels.get ⟨i, hy⟩ = JVal.str "<null>") ∧
          (∀ x, alget r2 (lns.get ⟨i, hx⟩) = some x → x ≠ JVal.null →
            labels.get ⟨i, hy⟩ = x)) := by
  refine ⟨rfl, rfl, ?_⟩
  intro response row r2 h
  rcases collectRecord_ok_inv lv lns response row r2 h with
    ⟨v, labels, _, _, hr2, hm, hrow⟩
  subst hr2
  refine ⟨labels, by rw [hrow], mapExcept_ok_length _ lns labels hm, ?_⟩
  intro i hx hy
  have hget := mapExcept_ok_get _ lns labels hm i hx hy
  constructor
  · intro hnull
    simp only [labelLookup, hnull] at hget
    exact (Except.ok.inj hget).symm
  · intro x hxv hnn
    rw [labelLookup_not_null _ _ x hxv hnn] at hget
    exact (Except.ok.inj hget).symm

/-- C8 witness: the general clause applied to the record
`{"id": None, "value": 1}` with `labelNames = ["id"]`. -/
theorem null_sentinel_rows_witness :
    (collectRecord [] ["id"] [("id", JVal.null), ("value", JVal.int 1)] =
      .ok (([JVal.str "<null>"], JVal.int 1), [("id", JVal.null)])) ∧
    (∃ labels, ([JVal.str "<null>"], JVal.int 1).1 = [] ++ labels ∧
      labels.length = (["id"] : List String).length ∧
      ∀ i (hx : i < (["id"] : List String).length) (hy : i < labels.length),
        (alget [("id", JVal.null)] ((["id"] : List String).get ⟨i, hx⟩) =
            some JVal.null →
          labels.get ⟨i, hy⟩ = JVal.str "<null>") ∧
        (∀ x, alget [("id", JVal.null)] ((["id"] : List String).get ⟨i, hx⟩) =
            some x → x ≠ JVal.null → labels.get ⟨i, hy⟩ = x)) :=
  ⟨rfl, (null_sentinel_rows [] ["id"] 1 "").2.2 [("id", JVal.null), ("value", JVal.int 1)]
    (([JVal.str "<null>"], JVal.int 1)) [("id", JVal.null)] rfl⟩

/-!
## Claim C9: process-wide extra labels are prepended
-/

/-- C9: when the collector is constructed with process-wide extra label
names and values, every row produced by the projection step starts with the
extra label values, in construction order, followed by exactly one value
per declared label name; and every gauge family yielded by `collect`
carries the extra label names followed by the metric's own label names. -/
theorem extra_labels_prepended (st : CollectorState) (lns : List String)
    (resps : List JVal) (rows : List Row) (muts : List Dict)
    (h : project_responses st.label_values lns resps = .ok (rows, muts)) :
    (∀ row ∈ rows, ∃ ext, ext.length = lns.length ∧
      row.1 = st.label_values ++ ext) ∧
    (∀ g ∈ collect st, ∃ m, m ∈ st.metrics ∧ g.name = m.name ∧
      g.labels = st.label_names ++ m.label_names) := by
  constructor
  · intro row hrow
    rcases project_responses_ok_inv _ _ _ _ _ h with ⟨pairs, hpairs, hrows, _⟩
    subst hrows
    rcases List.mem_map.mp hrow with ⟨pair, hpair, hpr⟩
    rcases mapExcept_ok_mem _ resps pairs hpairs pair hpair with ⟨r, _, hr⟩
    cases r with
    | obj d =>
      rcases collectRecord_ok_inv _ _ _ _ _ hr with
        ⟨v, labels, _, _, _, hm, hrowEq⟩
      refine ⟨labels, mapExcept_ok_length _ lns labels hm, ?_⟩
      rw [← hpr, hrowEq]
    | null => cases hr
    | bool b => cases hr
    | int n => cases hr
    | str s => cases hr
    | time t => cases hr
    | arr xs => cases hr
  · intro g hg
    rcases List.mem_map.mp hg with ⟨m, hm, hgm⟩
    exact ⟨m, hm, by rw [← hgm], by rw [← hgm]⟩

/-- C9 witness: a projection with extra label values
`["us-east-1", "dev"]` (the scenario of
`test_collect_metric_with_extra_labels`). -/
theorem extra_labels_prepended_witness :
    (project_responses [JVal.str "us-east-1", JVal.str "dev"] ["id"]
        [JVal.obj [("id", JVal.str "i1"), ("value", JVal.int 1)]] =
      .ok ([([JVal.str "us-east-1", JVal.str "dev", JVal.str "i1"], JVal.int 1)],
        [[("id", JVal.str "i1")]])) ∧
    (∀ row ∈ [([JVal.str "us-east-1", JVal.str "dev", JVal.str "i1"], JVal.int 1)],
      ∃ ext, ext.length = (["id"] : List String).length ∧
        (row : Row).1 = [JVal.str "us-east-1", JVal.str "dev"] ++ ext) :=
  ⟨rfl,
    (extra_labels_prepended
      ⟨[], ["region", "env"], [JVal.str "us-east-1", JVal.str "dev"], []⟩ ["id"]
      [JVal.obj [("id", JVal.str "i1"), ("value", JVal.int 1)]]
      [([JVal.str "us-east-1", JVal.str "dev", JVal.str "i1"], JVal.int 1)]
      [[("id", JVal.str "i1")]] rfl).1⟩

/-!
## Claim C10: collection pops `value` out of the response records
-/

/-- C10: the projection step mutates the raw response records it is given
— after a successful pass, every record has had its `"value"` key popped
out, and running the projection step a second time over the very same
record objects fails the `assert "value" in response` check. -/
theorem value_popped_from_records (lv : List JVal) (lns : List String)
    (resps : List JVal) (rows : List Row) (muts : List Dict)
    (h : project_responses lv lns resps = .ok (rows, muts)) :
    (∀ d ∈ muts, alget d "value" = none) ∧
    (resps ≠ [] → project_responses lv lns (muts.map JVal.obj) =
      .error PyErr.missingValueProperty) := by
  rcases project_responses_ok_inv _ _ _ _ _ h with ⟨pairs, hpairs, _, hmuts⟩
  have hpop : ∀ d ∈ muts, alget d "value" = none := by
    intro d hd
    rw [hmuts] at hd
    rcases List.mem_map.mp hd with ⟨pair, hpair, hpd⟩
    rcases mapExcept_ok_mem _ resps pairs hpairs pair hpair with ⟨r, _, hr⟩
    cases r with
    | obj d0 =>
      rcases collectRecord_ok_inv _ _ _ _ _ hr with ⟨v, labels, _, _, hr2, _, _⟩
      rw [← hpd, hr2]
      exact alget_alpop_self d0 "value"
    | null => cases hr
    | bool b => cases hr
    | int n => cases hr
    | str s => cases hr
    | time t => cases hr
    | arr xs => cases hr
  refine ⟨hpop, ?_⟩
  intro hne
  cases hps : pairs with
  | nil =>
    have hlen := mapExcept_ok_length _ resps pairs hpairs
    rw [hps] at hlen
    cases hres : resps with
    | nil => exact absurd hres hne
    | cons a b => rw [hres] at hlen; cases hlen
  | cons p prest =>
    have hmu : muts = p.2 :: prest.map Prod.snd := by
      rw [hmuts, hps, List.map_cons]
    have hd1 : alget p.2 "value" = none :=
      hpop p.2 (by rw [hmu]; exact List.mem_cons_self _ _)
    have hcr : collectRecord lv lns p.2 = .error PyErr.missingValueProperty := by
      unfold collectRecord
      rw [hd1]
    rw [hmu]
    unfold project_responses
    have hall : ((JVal.obj p.2 :: (prest.map Prod.snd).map JVal.obj).all fun r =>
        match r with | JVal.obj _ => true | _ => false) = true := by
      simp only [List.all_cons, List.all_eq_true, Bool.and_eq_true]
      refine ⟨trivial, ?_⟩
      intro r hr
      rcases List.mem_map.mp hr with ⟨d, _, rfl⟩
      rfl
    simp only [List.map_cons, hall, Bool.not_true, Bool.false_eq_true, if_false]
    rw [mapExcept_error_head (fun r =>
      match r with
      | JVal.obj d => collectRecord lv lns d
      | _ => .error PyErr.responsesNotDicts)
      ((prest.map Prod.snd).map JVal.obj) (JVal.obj p.2)
      PyErr.missingValueProperty hcr]

/-- C10 witness: a one-record projection pass followed by a second pass
over the mutated record. -/
theorem value_popped_from_records_witness :
    (∀ d ∈ [[("id", JVal.str "i1")]], alget d "value" = none) ∧
    (([JVal.obj [("id", JVal.str "i1"), ("value", JVal.int 1)]] :
        List JVal) ≠ [] →
      project_responses [] ["id"] ([[("id", JVal.str "i1")]].map JVal.obj) =
        .error PyErr.missingValueProperty) :=
  value_popped_from_records [] ["id"]
    [JVal.obj [("id", JVal.str "i1"), ("value", JVal.int 1)]]
    [([JVal.str "i1"], JVal.int 1)] [[("id", JVal.str "i1")]] rfl

/-!
## Claim C6: which fields are mandatory
-/

theorem alhas_of_alget {α : Type} (d : List (String × α)) (k : String) (v : α)
    (h : alget d k = some v) : alhas d k = true := by
  unfold alget at h
  unfold alhas
  cases hf : d.find? (fun p => p.1 == k) with
  | none => rw [hf] at h; cases h
  | some p =>
    have hp := List.find?_some hf
    have hmem : p ∈ d := List.mem_of_find?_eq_some hf
    rw [List.any_eq_true]
    exact ⟨p, hmem, hp⟩

/-- C6 counterexample.  The claim states that a metric entry that omits
`label_names` parses successfully.  On the code, `label_names` is read
through `get_field` like the mandatory fields, so the parse fails naming
the metric and the field. -/
theorem label_names_required_counterexample :
    parse_aws_metrics 0 [("ec2_instance_ids", rmNoLabelNames)] =
      .error (PyErr.missingField "ec2_instance_ids" "label_names") := rfl

/-- C6 (amended): `label_names` is itself mandatory.  For every metric
entry with a valid name, string-valued `description`, `service` and
`method` fields, a mapping-valued `method_args` field, no `paginator` key
and no `label_names` key, the parse fails with the error naming the
metric and the field `label_names`. -/
theorem label_names_mandatory (now : Int) (name : String) (pm : RawMetric)
    (hname : validMetricName name = true)
    (hnopag : alhas pm "paginator" = false)
    (hd : ∃ s, alget pm "description" = some (FieldVal.str s))
    (hs : ∃ s, alget pm "service" = some (FieldVal.str s))
    (hm : ∃ s, alget pm "method" = some (FieldVal.str s))
    (ha : ∃ d, alget pm "method_args" = some (FieldVal.dict d))
    (hl : alget pm "label_names" = none) :
    parse_aws_metrics now [(name, pm)] =
      .error (PyErr.missingField name "label_names") := by
  obtain ⟨sd, hd⟩ := hd
  obtain ⟨ss, hs⟩ := hs
  obtain ⟨sm, hm⟩ := hm
  obtain ⟨da, ha⟩ := ha
  have hmhas : alhas pm "method" = true := alhas_of_alget pm "method" _ hm
  have hone : parseOneMetric now name pm =
      .error (PyErr.missingField name "label_names") := by
    simp only [parseOneMetric, hname, Bool.not_true, Bool.false_eq_true,
      if_false, selectMode, hnopag, hmhas, if_true, strippedField, get_field,
      hd, hs, hm, ha, hl, stripField, eval_paginator_args, Option.getD_some]
  show mapExcept (fun p => parseOneMetric now p.1 p.2) [(name, pm)] = _
  rw [mapExcept_error_head (fun p => parseOneMetric now p.1 p.2) [] (name, pm)
    (PyErr.missingField name "label_names") hone]

/-- C6 witness: the amended theorem applied to the concrete body
`rmNoLabelNames`. -/
theorem label_names_mandatory_witness :
    (validMetricName "ec2_instance_ids" = true) ∧
    (alhas rmNoLabelNames "paginator" = false) ∧
    (alget rmNoLabelNames "label_names" = none) ∧
    parse_aws_metrics 7 [("ec2_instance_ids", rmNoLabelNames)] =
      .error (PyErr.missingField "ec2_instance_ids" "label_names") :=
  ⟨rfl, rfl, rfl,
    label_names_mandatory 7 "ec2_instance_ids" rmNoLabelNames rfl rfl
      ⟨"EC2 instance ids", rfl⟩ ⟨"ec2", rfl⟩ ⟨"describe_instances", rfl⟩
      ⟨[], rfl⟩ rfl⟩

/-!
## Claim C7: duplicate metric names
-/

/-- C7 counterexample.  The claim states that a document declaring the
same metric name twice fails with a `SpecError` naming the metric.  On the
code, the YAML mapping construction silently keeps only the last
occurrence, and the parse succeeds with a single metric built from it. -/
theorem duplicate_name_counterexample :
    parse_aws_metrics 0 [("dup_metric", rmDupFirst), ("dup_metric", rmDupSecond)] =
      .ok [{ name := "dup_metric", description := "second", service := "ec2",
             method := "describe_instances", method_args := [],
             use_paginator := false, label_names := ["id"],
             search := "expr" }] := rfl

/-- C7 (amended): a duplicated metric name never reaches the parser as a
duplicate and never raises: the YAML mapping load collapses it, keeping
the last occurrence, so the mapping handed to the parse loop has pairwise
distinct names and the parse is exactly the per-entry parse of that
collapsed mapping. -/
theorem duplicate_names_collapse (now : Int) (doc : RawDoc) :
    ((yamlLoadMapping doc).map Prod.fst).Nodup ∧
    (∀ (k : String) (v1 v2 : RawMetric),
      yamlLoadMapping [(k, v1), (k, v2)] = [(k, v2)]) ∧
    parse_aws_metrics now doc =
      mapExcept (fun p => parseOneMetric now p.1 p.2) (yamlLoadMapping doc) := by
  refine ⟨nodup_keys_foldl_alset doc [] (by simp), ?_, rfl⟩
  intro k v1 v2
  show alset (alset [] k v1) k v2 = [(k, v2)]
  unfold alset
  simp

/-!
## Claim C3: parsing as a pure function of the document
-/

/-- C3 counterexample.  The claim states that two parses of the same
document at two different moments yield bit-identical metric lists.  A
string args field is evaluated through the dynamic evaluator with the
`datetime` binding in scope, so `datetime.utcnow() - timedelta(weeks=4)`
makes the parsed `method_args` depend on the moment of the parse: parsing
`rmClockArgs` at minute 0 and at minute 40320 yields different
`CreatedAfter` values, hence different metric lists. -/
theorem parse_time_dependent_counterexample :
    ((parse_aws_metrics 0 [("recent_emr_cluster_ids", rmClockArgs)]).map
        (fun ms => ms.map AwsMetric.method_args) =
      .ok [[("CreatedAfter", JVal.time (-40320))]]) ∧
    ((parse_aws_metrics 40320 [("recent_emr_cluster_ids", rmClockArgs)]).map
        (fun ms => ms.map AwsMetric.method_args) =
      .ok [[("CreatedAfter", JVal.time 0)]]) ∧
    parse_aws_metrics 0 [("recent_emr_cluster_ids", rmClockArgs)] ≠
      parse_aws_metrics 40320 [("recent_emr_cluster_ids", rmClockArgs)] := by
  refine ⟨rfl, rfl, fun h => ?_⟩
  have h2 : (Except.ok [[("CreatedAfter", JVal.time (-40320))]] :
      Except PyErr (List Dict)) = .ok [[("CreatedAfter", JVal.time 0)]] := by
    calc (Except.ok [[("CreatedAfter", JVal.time (-40320))]] :
        Except PyErr (List Dict))
        = (parse_aws_metrics 0 [("recent_emr_cluster_ids", rmClockArgs)]).map
            (fun ms => ms.map AwsMetric.method_args) := rfl
      _ = (parse_aws_metrics 40320 [("recent_emr_cluster_ids", rmClockArgs)]).map
            (fun ms => ms.map AwsMetric.method_args) := by rw [h]
      _ = .ok [[("CreatedAfter", JVal.time 0)]] := rfl
  simp only [Except.ok.injEq, List.cons.injEq, Prod.mk.injEq,
    JVal.time.injEq, and_true, true_and] at h2
  have h3 : (-40320 : Int) ≠ 0 := by decide
  exact h3 h2

theorem TimeExpr_evalAt_congr (t1 t2 : Int) (e : TimeExpr)
    (h : e.usesClock = false) : e.evalAt t1 = e.evalAt t2 := by
  induction e with
  | utcnow => cases h
  | lit t => rfl
  | subDuration e m ih =>
    unfold TimeExpr.evalAt
    unfold TimeExpr.usesClock at h
    rw [ih h]

theorem eval_args_time_congr (t1 t2 : Int) (fv : FieldVal)
    (h : fv.argsUseClock = false) :
    eval_paginator_args t1 fv = eval_paginator_args t2 fv := by
  cases fv with
  | expr e =>
    cases e with
    | dictExpr entries =>
      simp only [eval_paginator_args]
      simp only [FieldVal.argsUseClock, ArgsExpr.usesClock] at h
      congr 1
      apply List.map_congr_left
      intro p hp
      have hpc : p.2.usesClock = false := by
        cases hc : p.2.usesClock
        · rfl
        · exfalso
          have hany : (entries.any fun q => q.2.usesClock) = true := by
            rw [List.any_eq_true]
            exact ⟨p, hp, hc⟩
          rw [h] at hany
          cases hany
      rw [TimeExpr_evalAt_congr t1 t2 p.2 hpc]
    | nonDict e => rfl
  | dict d => rfl
  | null => rfl
  | str s2 => rfl
  | strList xs => rfl

theorem parseOneMetric_time_congr (t1 t2 : Int) (name : String)
    (pm : RawMetric) (h : metricUsesClock pm = false) :
    parseOneMetric t1 name pm = parseOneMetric t2 name pm := by
  have hargs : ∀ k : String,
      eval_paginator_args t1 ((alget pm k).getD (.dict [])) =
        eval_paginator_args t2 ((alget pm k).getD (.dict [])) := by
    intro k
    cases hv : alget pm k with
    | none => rfl
    | some fv =>
      simp only [Option.getD_some]
      apply eval_args_time_congr
      cases hc : fv.argsUseClock
      · rfl
      · exfalso
        unfold alget at hv
        cases hf : pm.find? (fun p => p.1 == k) with
        | none => rw [hf] at hv; cases hv
        | some p =>
          rw [hf] at hv
          have hp2 : p.2 = fv := by
            simpa using hv
          have hany : (pm.any fun q => q.2.argsUseClock) = true := by
            rw [List.any_eq_true]
            exact ⟨p, List.mem_of_find?_eq_some hf, by rw [hp2]; exact hc⟩
          unfold metricUsesClock at h
          rw [h] at hany
          cases hany
  unfold parseOneMetric
  simp only [hargs]

/-- C3 (amended): the parse is a pure function of the document and of the
current moment; it is independent of the moment — and hence bit-identical
across two parses at different times — exactly when no args field of the
document is a string expression reading the current-moment constructor.
A document with a clock-reading args string parses differently at
different moments (see the counterexample). -/
theorem parse_pure_without_clock (t1 t2 : Int) (doc : RawDoc)
    (h : docUsesClock doc = false) :
    parse_aws_metrics t1 doc = parse_aws_metrics t2 doc := by
  unfold parse_aws_metrics
  apply mapExcept_congr
  intro p hp
  apply parseOneMetric_time_congr
  have hdoc : ∀ q ∈ doc, metricUsesClock q.2 = false := by
    intro q hq
    cases hmc : metricUsesClock q.2
    · rfl
    · exfalso
      have hany : docUsesClock doc = true := by
        unfold docUsesClock
        rw [List.any_eq_true]
        exact ⟨q, hq, hmc⟩
      rw [h] at hany
      cases hany
  exact mem_foldl_alset doc (fun q => metricUsesClock q.2 = false) []
    (fun q hq => absurd hq (List.not_mem_nil q)) hdoc p hp

/-- C3 witness: a clock-free document parses identically at two
moments. -/
theorem parse_pure_without_clock_witness :
    docUsesClock rmPlainDoc = false ∧
    parse_aws_metrics 0 rmPlainDoc = parse_aws_metrics 360 rmPlainDoc :=
  ⟨rfl, parse_pure_without_clock 0 360 rmPlainDoc rfl⟩

/-!
## Claim C1: fault isolation across metrics in one refresh cycle
-/

/-- C1 counterexample.  The claim states that when `failing_metric`
raises, `healthy_metric` still completes (its rows replaced) and
`failing_metric` keeps its previous snapshot.  On the code, `update`
clears the whole store first and aborts at the first exception: after the
cycle the store is empty — `healthy_metric` was never refreshed and
`failing_metric` lost its previous rows — and the error propagates. -/
theorem fault_isolation_counterexample :
    update fetchCex stCex =
      ({ metrics := [mFailing, mHealthy], label_names := [],
         label_values := [], data := [] },
       some (PyErr.fetchError "ec2" "describe_instances")) ∧
    alget (update fetchCex stCex).1.data "healthy_metric" = none ∧
    alget (update fetchCex stCex).1.data "failing_metric" = none :=
  ⟨rfl, rfl, rfl⟩

theorem updateLoop_prefix_ok_then_fail
    (fetch : AwsMetric → Except PyErr (List JVal)) (lv : List JVal)
    (mf : AwsMetric) (ms2 : List AwsMetric) (e : PyErr)
    (hfail : collect_metric fetch lv mf = .error e) :
    ∀ (ms1 : List AwsMetric) (data : List (String × List Row)),
      (∀ m ∈ ms1, ∃ rows, collect_metric fetch lv m = .ok rows) →
      updateLoop fetch lv (ms1 ++ mf :: ms2) data =
        ((updateLoop fetch lv ms1 data).1, some e) := by
  intro ms1
  induction ms1 with
  | nil =>
    intro data _
    simp only [List.nil_append]
    unfold updateLoop
    rw [hfail]
  | cons m rest ih =>
    intro data hok
    obtain ⟨rows, hrows⟩ := hok m (List.mem_cons_self m rest)
    simp only [List.cons_append]
    unfold updateLoop
    rw [hrows]
    exact ih (alset data m.name rows)
      (fun m2 hm2 => hok m2 (List.mem_cons_of_mem m hm2))

theorem mem_keys_alset {α : Type} (d : List (String × α)) (k : String)
    (v : α) (x : String) (h : x ∈ (alset d k v).map Prod.fst) :
    x ∈ d.map Prod.fst ∨ x = k := by
  rcases List.mem_map.mp h with ⟨q, hq, hx⟩
  rcases mem_alset d k v q hq with hqd | hqk
  · left
    exact hx ▸ List.mem_map_of_mem Prod.fst hqd
  · right
    rw [← hx, hqk]

theorem updateLoop_keys (fetch : AwsMetric → Except PyErr (List JVal))
    (lv : List JVal) :
    ∀ (ms : List AwsMetric) (data : List (String × List Row))
      (p : String × List Row), p ∈ (updateLoop fetch lv ms data).1 →
      p.1 ∈ data.map Prod.fst ∨ p.1 ∈ ms.map AwsMetric.name := by
  intro ms
  induction ms with
  | nil =>
    intro data p hp
    left
    exact List.mem_map_of_mem Prod.fst hp
  | cons m rest ih =>
    intro data p hp
    unfold updateLoop at hp
    cases hc : collect_metric fetch lv m with
    | error e =>
      rw [hc] at hp
      left
      exact List.mem_map_of_mem Prod.fst hp
    | ok rows =>
      rw [hc] at hp
      rcases ih (alset data m.name rows) p hp with hd | hm
      · rcases mem_keys_alset data m.name rows p.1 hd with h0 | h1
        · left; exact h0
        · right; rw [h1]; exact List.mem_cons_self m.name _
      · right
        exact List.mem_cons_of_mem m.name hm

/-- C1 (amended): when any metric's collection raises
(`FetchError`/projection error), `update` aborts the cycle and the error
propagates: the metrics strictly before the failing one (in declaration
order) have freshly collected rows in the store, while the failing metric
and every later metric have **no** stored rows at all — the store was
emptied at the start of the cycle, so the failing metric loses its last
snapshot instead of keeping it, and no later metric is refreshed. -/
theorem update_aborts_on_failure
    (fetch : AwsMetric → Except PyErr (List JVal)) (st : CollectorState)
    (ms1 ms2 : List AwsMetric) (mf : AwsMetric) (e : PyErr)
    (hsplit : st.metrics = ms1 ++ mf :: ms2)
    (hok : ∀ m ∈ ms1, ∃ rows, collect_metric fetch st.label_values m = .ok rows)
    (hfail : collect_metric fetch st.label_values mf = .error e) :
    (update fetch st).2 = some e ∧
    (update fetch st).1.data = (updateLoop fetch st.label_values ms1 []).1 ∧
    ∀ p ∈ (update fetch st).1.data, p.1 ∈ ms1.map AwsMetric.name := by
  have hloop := updateLoop_prefix_ok_then_fail fetch st.label_values mf ms2 e
    hfail ms1 [] hok
  have hupd : update fetch st =
      ({ st with data := (updateLoop fetch st.label_values ms1 []).1 },
        some e) := by
    unfold update
    rw [hsplit, hloop]
  refine ⟨by rw [hupd], by rw [hupd], ?_⟩
  intro p hp
  rw [hupd] at hp
  rcases updateLoop_keys fetch st.label_values ms1 [] p hp with h0 | h1
  · exact absurd h0 (List.not_mem_nil p.1)
  · exact h1

/-- C1 witness: the amended theorem applied to the concrete collector
`stCex`, whose first metric fails at once. -/
theorem update_aborts_on_failure_witness :
    (stCex.metrics = [] ++ mFailing :: [mHealthy]) ∧
    ((update fetchCex stCex).2 =
        some (PyErr.fetchError "ec2" "describe_instances") ∧
      (update fetchCex stCex).1.data =
        (updateLoop fetchCex stCex.label_values [] []).1 ∧
      ∀ p ∈ (update fetchCex stCex).1.data,
        p.1 ∈ ([] : List AwsMetric).map AwsMetric.name) :=
  ⟨rfl, update_aborts_on_failure fetchCex stCex [] [mHealthy] mFailing
    (PyErr.fetchError "ec2" "describe_instances") rfl
    (fun m hm => absurd hm (List.not_mem_nil m)) rfl⟩

/-!
## Claim C2: what runs inside the store's exclusion domain
-/

/-- C2 counterexample.  The claim states that the remote calls and the
projection run outside the exclusion domain, with only the final row swap
inside.  On the code the whole refresh body — remote call included — runs
inside the `with self._data_lock:` block: for a one-metric collector the
remote-call step is among the steps performed while the lock is held. -/
theorem lock_scope_counterexample :
    heldSteps (updateTrace [mTraced]) =
      [Step.clearData, Step.remoteCall "ok_metric",
       Step.projection "ok_metric", Step.storeRows "ok_metric"] ∧
    Step.remoteCall "ok_metric" ∈ heldSteps (updateTrace [mTraced]) := by
  refine ⟨rfl, ?_⟩
  rw [show heldSteps (updateTrace [mTraced]) =
    [Step.clearData, Step.remoteCall "ok_metric",
     Step.projection "ok_metric", Step.storeRows "ok_metric"] from rfl]
  exact List.mem_cons_of_mem _ (List.mem_cons_self _ _)

theorem takeWhile_append_stop {α : Type} (p : α → Bool) :
    ∀ (l : List α) (x : α), (∀ a ∈ l, p a = true) → p x = false →
      (l ++ [x]).takeWhile p = l := by
  intro l
  induction l with
  | nil =>
    intro x _ hx
    simp [List.takeWhile_cons, hx]
  | cons a rest ih =>
    intro x hall hx
    simp only [List.cons_append, List.takeWhile_cons,
      hall a (List.mem_cons_self a rest), if_true]
    rw [ih x (fun b hb => hall b (List.mem_cons_of_mem a hb)) hx]

/-- C2 (amended): in `update`, the whole refresh body runs inside the
store's exclusion domain — the held-steps of the update trace are exactly
the store reset followed by, for every metric, its remote call, its
projection and its row store; in particular every metric's remote call and
projection happen while the lock is held, so a concurrent `collect` blocks
for the duration of the whole refresh, not just a row swap. -/
theorem expensive_work_inside_lock (metrics : List AwsMetric) :
    heldSteps (updateTrace metrics) =
      Step.clearData :: (metrics.map fun m =>
        [Step.remoteCall m.name, Step.projection m.name,
         Step.storeRows m.name]).flatten ∧
    ∀ m ∈ metrics,
      Step.remoteCall m.name ∈ heldSteps (updateTrace metrics) ∧
      Step.projection m.name ∈ heldSteps (updateTrace metrics) := by
  have hflat : ∀ s ∈ (metrics.map fun m =>
      [Step.remoteCall m.name, Step.projection m.name,
       Step.storeRows m.name]).flatten, isRelease s = false := by
    intro s hs
    rcases List.mem_flatten.mp hs with ⟨l, hl, hsl⟩
    rcases List.mem_map.mp hl with ⟨m, _, hml⟩
    rw [← hml] at hsl
    rcases List.mem_cons.mp hsl with rfl | hsl
    · rfl
    rcases List.mem_cons.mp hsl with rfl | hsl
    · rfl
    rcases List.mem_cons.mp hsl with rfl | hsl
    · rfl
    exact absurd hsl (List.not_mem_nil s)
  have hmain : heldSteps (updateTrace metrics) =
      Step.clearData :: (metrics.map fun m =>
        [Step.remoteCall m.name, Step.projection m.name,
         Step.storeRows m.name]).flatten := by
    unfold heldSteps updateTrace
    rw [show ([Step.acquire, Step.clearData] ++ (metrics.map fun m =>
        [Step.remoteCall m.name, Step.projection m.name,
         Step.storeRows m.name]).flatten ++ [Step.release]) =
      Step.acquire :: (Step.clearData :: (metrics.map fun m =>
        [Step.remoteCall m.name, Step.projection m.name,
         Step.storeRows m.name]).flatten ++ [Step.release]) from by simp]
    rw [List.dropWhile_cons]
    simp only [isAcquire, Bool.not_true, Bool.false_eq_true, if_false,
      List.drop_succ_cons, List.drop_zero]
    rw [show (Step.clearData :: (metrics.map fun m =>
        [Step.remoteCall m.name, Step.projection m.name,
         Step.storeRows m.name]).flatten ++ [Step.release]) =
      ((Step.clearData :: (metrics.map fun m =>
        [Step.remoteCall m.name, Step.projection m.name,
         Step.storeRows m.name]).flatten) ++ [Step.release]) from by simp]
    rw [takeWhile_append_stop _ _ Step.release ?hall rfl]
    case hall =>
      intro a ha
      rcases List.mem_cons.mp ha with rfl | ha
      · rfl
      · rw [hflat a ha]
        rfl
  refine ⟨hmain, ?_⟩
  intro m hm
  rw [hmain]
  constructor
  · refine List.mem_cons_of_mem _ (List.mem_flatten.mpr ?_)
    exact ⟨[Step.remoteCall m.name, Step.projection m.name,
      Step.storeRows m.name], List.mem_map_of_mem _ hm,
      List.mem_cons_self _ _⟩
  · refine List.mem_cons_of_mem _ (List.mem_flatten.mpr ?_)
    exact ⟨[Step.remoteCall m.name, Step.projection m.name,
      Step.storeRows m.name], List.mem_map_of_mem _ hm,
      List.mem_cons_of_mem _ (List.mem_cons_self _ _)⟩

end AwsExporter
